import Mathlib

/-!
Verification of the `flexi-cache/pkg/signal` package (Go).

We shallowly embed the package's data model and operations:

* OS signals are `Nat` (SIGTERM = 15, SIGINT = 2); the sentinel registry
  key `anySignal` becomes the constructor `SigKey.any`.
* Go `error` values returned by termination procedures become
  `Option GoError`, where `GoError.withCode` embeds the unexported
  `errorWithExitCode` carrier struct and `GoError.base` is any other
  (opaque) error value.
* Side effects (logger calls, handler invocations, the `exit` function)
  are recorded as a trace (`List Event`).  A Go method call on a nil
  `Logger` interface value panics at runtime; we model panics with
  `Except GoPanic`, so every operation that may touch the logger returns
  `Except GoPanic (result)`.
* `HandlerFunc` values become `Handler`: either an opaque user callback
  (identified by a number; invoking it is the observable trace event
  `Event.callUser`) or the package's internal
  `handleTerminationSignals` method registered by `NewHandlers`.
* The Go map `handlers map[os.Signal][]HandlerFunc` becomes an
  association list.  Go maps have unique keys; we prove the unique-key
  invariant for all reachable states where it matters.  Go map range
  order is unspecified, but in `handleSignal` at most one key matches
  the target, so the handler invocation order is deterministic; the
  only order-sensitive artifacts are the low-severity debug lines for
  non-matching keys, about which no claim speaks.
-/

namespace Signal

/-- Embedding of Go `error` values flowing through this package:
`errorWithExitCode{error, exitCode}` (part_003) or any other error,
identified opaquely by a number. -/
inductive GoError where
  | base : Nat → GoError
  | withCode : GoError → Int → GoError
deriving DecidableEq

/-- `true` exactly when the dynamic type of the error is the
`errorWithExitCode` carrier (the Go type assertion
`e.(errorWithExitCode)` succeeds). -/
def isCarrier : GoError → Bool
  | GoError.withCode _ _ => true
  | GoError.base _ => false

/-- `getCodeFromError` (part_003): if the error's dynamic type is
`errorWithExitCode`, return its embedded `exitCode`, else the default.
A nil error (`none`) is not the carrier type, so it also yields the
default. -/
def getCodeFromError (e : Option GoError) (def' : Int) : Int :=
  match e with
  | some (GoError.withCode _ code) => code
  | _ => def'

/-- `WrapErrorWithCode` (part_003): wraps a given error with an exit
code; returns nil when given nil. -/
def WrapErrorWithCode (e : Option GoError) (code : Int) : Option GoError :=
  match e with
  | none => none
  | some e => some (GoError.withCode e code)

/-- Runtime panics that the modelled operations can raise. -/
inductive GoPanic where
  | nilLoggerDeref : GoPanic
  | closeOfClosedChannel : GoPanic
deriving DecidableEq

/-- Registry keys of the Go map `handlers map[os.Signal][]HandlerFunc`:
either the sentinel `anySignal` value or a real OS signal (a number). -/
inductive SigKey where
  | any : SigKey
  | sig : Nat → SigKey
deriving DecidableEq

/-- A `HandlerFunc` stored in the registry: an opaque user callback
(identified by a number) or the internal `handleTerminationSignals`
method that `NewHandlers` registers. -/
inductive Handler where
  | user : Nat → Handler
  | term : Handler
deriving DecidableEq

/-- Observable events: logger calls (one constructor per call site),
handler and procedure invocations, and the `exit` function call. -/
inductive Event where
  | info : String → Event
  | infoErr : String → GoError → Event
  | debugReg : String → Event
  | debugNoHandler : Nat → Event
  | callUser : Nat → Nat → Event
  | procCall : Nat → Event
  | exit : Int → Event
deriving DecidableEq

/-- `terminationProcedure` (part_003): a `TerminationFunc` together with
its log message.  The callback is embedded as a pure function from the
triggering signal to an optional error. -/
structure TermProc where
  fn : Nat → Option GoError
  message : String

/-- The `Handlers` aggregate (handlers.go).  `log` is the `Logger`
interface field: `none` models a nil interface value (method calls on
it panic).  The `exit` function field is not part of the state; its
invocation is recorded as `Event.exit` in traces. -/
structure Handlers where
  log : Option Unit
  handlers : List (SigKey × List Handler)
  terminationSignals : List Nat
  terminationProcedures : List TermProc

/-- POSIX numbers of the conventional signals. -/
def SIGTERM : Nat := 15

def SIGINT : Nat := 2

/-- `DefaultTerminationSignals = []os.Signal{syscall.SIGTERM, syscall.SIGINT}`. -/
def DefaultTerminationSignals : List Nat := [SIGTERM, SIGINT]

/-- A call `s.log.Info(...)` / `s.log.Debug(...)`: panics when the
logger interface is nil, otherwise emits the event. -/
def logCall (s : Handlers) (e : Event) : Except GoPanic (List Event) :=
  match s.log with
  | none => Except.error GoPanic.nilLoggerDeref
  | some _ => Except.ok [e]

/-- Go map lookup `m[k]` (a missing key yields the zero value, i.e. an
empty handler list). -/
def lookupEntry (m : List (SigKey × List Handler)) (k : SigKey) : List Handler :=
  match m with
  | [] => []
  | (k', hs) :: rest => if k' = k then hs else lookupEntry rest k

/-- Go map membership test `_, exists := m[k]`. -/
def containsKey (m : List (SigKey × List Handler)) (k : SigKey) : Bool :=
  match m with
  | [] => false
  | (k', _) :: rest => k' = k || containsKey rest k

/-- Go map update `m[k] = append(m[k], h)`: appends to the entry when
the key exists, otherwise creates the entry `[h]`. -/
def updEntry (m : List (SigKey × List Handler)) (k : SigKey) (h : Handler) :
    List (SigKey × List Handler) :=
  match m with
  | [] => [(k, [h])]
  | (k', hs) :: rest =>
      if k' = k then (k', hs ++ [h]) :: rest else (k', hs) :: updEntry rest k h

/-- `RegisterSignalHandler` (handlers.go:60-75): with zero signals the
callback goes to the `anySignal` entry, otherwise it is appended to
each named signal's entry (created when absent). -/
def RegisterSignalHandler (s : Handlers) (handler : Handler) (signals : List Nat) :
    Handlers :=
  if signals.isEmpty then
    { s with handlers := updEntry s.handlers SigKey.any handler }
  else
    { s with handlers :=
        signals.foldl (fun m sig => updEntry m (SigKey.sig sig) handler) s.handlers }

/-- `RegisterTerminationProcedure` (handlers.go:78-83): appends the
procedure under the lock, then calls `s.log.Debug`.  The state change
happens before the log call, so it is returned even when the log call
panics on a nil logger. -/
def RegisterTerminationProcedure (s : Handlers) (fn : Nat → Option GoError)
    (message : String) : Handlers × Except GoPanic (List Event) :=
  ({ s with terminationProcedures := s.terminationProcedures ++ [⟨fn, message⟩] },
   logCall s (Event.debugReg message))

/-- `SetLogger` (handlers.go:156-160): replaces the logger under the
exclusive lock; a nil argument is stored as-is. -/
def SetLogger (s : Handlers) (l : Option Unit) : Handlers :=
  { s with log := l }

/-- The loop body of `runTerminationProcedures` (handlers.go:135-146),
carrying the running index (for `Event.procCall`) and the resolved
code.  Per procedure: log its message, invoke its callback, and on a
non-nil error log it and, only when `code == 0`, resolve the code from
the error with default 1. -/
def runProcs (s : Handlers) (sig : Nat) :
    List TermProc → Nat → Int → Except GoPanic (Int × List Event)
  | [], _, code =>
      match logCall s (Event.info "all termination procedures are done") with
      | Except.error p => Except.error p
      | Except.ok tr => Except.ok (code, tr)
  | proc :: rest, i, code =>
      match logCall s (Event.info proc.message) with
      | Except.error p => Except.error p
      | Except.ok tr1 =>
          match proc.fn sig with
          | none =>
              match runProcs s sig rest (i + 1) code with
              | Except.error p => Except.error p
              | Except.ok (c, tr) => Except.ok (c, tr1 ++ Event.procCall i :: tr)
          | some e =>
              match logCall s (Event.infoErr "error while running termination procedure: " e) with
              | Except.error p => Except.error p
              | Except.ok tr2 =>
                  match runProcs s sig rest (i + 1)
                      (if code = 0 then getCodeFromError (some e) 1 else code) with
                  | Except.error p => Except.error p
                  | Except.ok (c, tr) =>
                      Except.ok (c, tr1 ++ Event.procCall i :: (tr2 ++ tr))

/-- `runTerminationProcedures` (handlers.go:127-149): with no
procedures, log "nothing to do" and return 0; otherwise run the loop
starting from code 0. -/
def runTerminationProcedures (s : Handlers) (sig : Nat) :
    Except GoPanic (Int × List Event) :=
  if s.terminationProcedures.isEmpty then
    match logCall s (Event.info "nothing to do before termination") with
    | Except.error p => Except.error p
    | Except.ok tr => Except.ok ((0 : Int), tr)
  else runProcs s sig s.terminationProcedures 0 0

/-- `handleTerminationSignals` (handlers.go:121-125): run the pipeline,
log "bye", call `s.exit(code)` (recorded as `Event.exit code`). -/
def handleTerminationSignals (s : Handlers) (sig : Nat) :
    Except GoPanic (List Event) :=
  match runTerminationProcedures s sig with
  | Except.error p => Except.error p
  | Except.ok (code, tr) =>
      match logCall s (Event.info "bye") with
      | Except.error p => Except.error p
      | Except.ok tr2 => Except.ok (tr ++ tr2 ++ [Event.exit code])

/-- Invoking one registered `HandlerFunc` on the target signal. -/
def runHandler (s : Handlers) (target : Nat) : Handler → Except GoPanic (List Event)
  | Handler.user n => Except.ok [Event.callUser n target]
  | Handler.term => handleTerminationSignals s target

/-- Invoking a list of `HandlerFunc`s in order. -/
def runHandlers (s : Handlers) (target : Nat) :
    List Handler → Except GoPanic (List Event)
  | [] => Except.ok []
  | h :: hs =>
      match runHandler s target h with
      | Except.error p => Except.error p
      | Except.ok tr1 =>
          match runHandlers s target hs with
          | Except.error p => Except.error p
          | Except.ok tr2 => Except.ok (tr1 ++ tr2)

/-- The `for sig, handlers := range s.handlers` loop of `handleSignal`
(handlers.go:110-118): a matching key runs its handlers in order, a
non-matching key emits the debug line.  (Go map range order is
unspecified; at most one key matches, so handler order is
deterministic — only the debug lines' relative order is a choice.) -/
def dispatchSpecific (s : Handlers) (target : Nat) :
    List (SigKey × List Handler) → Except GoPanic (List Event)
  | [] => Except.ok []
  | (k, hs) :: rest =>
      if k = SigKey.sig target then
        match runHandlers s target hs with
        | Except.error p => Except.error p
        | Except.ok tr1 =>
            match dispatchSpecific s target rest with
            | Except.error p => Except.error p
            | Except.ok tr2 => Except.ok (tr1 ++ tr2)
      else
        match logCall s (Event.debugNoHandler target) with
        | Except.error p => Except.error p
        | Except.ok d =>
            match dispatchSpecific s target rest with
            | Except.error p => Except.error p
            | Except.ok tr2 => Except.ok (d ++ tr2)

/-- `handleSignal` (handlers.go:103-119): under the read lock, first
invoke every `anySignal` callback in order, then range over the map
running the callbacks registered for the target. -/
def handleSignal (s : Handlers) (target : Nat) : Except GoPanic (List Event) :=
  match runHandlers s target (lookupEntry s.handlers SigKey.any) with
  | Except.error p => Except.error p
  | Except.ok tr1 =>
      match dispatchSpecific s target s.handlers with
      | Except.error p => Except.error p
      | Except.ok tr2 => Except.ok (tr1 ++ tr2)

/-- `NewHandlers` (handlers.go:39-52): default the termination signals
when none are given, create the state with the standard logger and the
`anySignal` entry pre-created empty, then install the internal
termination handler for exactly the termination signals. -/
def NewHandlers (terminationSignals : List Nat) : Handlers :=
  let ts := if terminationSignals.isEmpty then DefaultTerminationSignals
            else terminationSignals
  let base : Handlers :=
    { log := some ()
      handlers := [(SigKey.any, [])]
      terminationSignals := ts
      terminationProcedures := [] }
  RegisterSignalHandler base Handler.term ts

/-- Spec-side characterization of the pipeline's exit code: the first
procedure (in order) whose non-nil error resolves (carrier code, else
default 1) to a nonzero value determines the code; errors resolving to
zero leave the code unresolved; no error at all yields 0. -/
def resolvedCode (sig : Nat) : List TermProc → Int
  | [] => 0
  | proc :: rest =>
      match proc.fn sig with
      | none => resolvedCode sig rest
      | some e =>
          if getCodeFromError (some e) 1 = 0 then resolvedCode sig rest
          else getCodeFromError (some e) 1

/-- Extracts the id of a user-callback invocation event. -/
def callUserId : Event → Option Nat
  | Event.callUser n _ => some n
  | _ => none

/-- Recognizes an invocation of the exit function. -/
def isExitEvent : Event → Bool
  | Event.exit _ => true
  | _ => false

/-- The user-callback ids embedded in a handler list, in order. -/
def userIds : List Handler → List Nat
  | [] => []
  | Handler.user n :: hs => n :: userIds hs
  | Handler.term :: hs => userIds hs

/-- Go maps have pairwise-distinct keys; this is the corresponding
invariant on the association-list embedding. -/
def keysUnique : List (SigKey × List Handler) → Bool
  | [] => true
  | (k, _) :: rest => !containsKey rest k && keysUnique rest

/-- The registry portion of a freshly constructed `Handlers`: standard
logger, only the pre-created empty `anySignal` entry, nothing else. -/
def registryInit : Handlers :=
  { log := some ()
    handlers := [(SigKey.any, [])]
    terminationSignals := []
    terminationProcedures := [] }

/-- A sequence of `RegisterSignalHandler` calls with user callbacks:
each pair is (callback id, signal arguments). -/
def applyRegs (s : Handlers) (regs : List (Nat × List Nat)) : Handlers :=
  match regs with
  | [] => s
  | (n, sigs) :: rest => applyRegs (RegisterSignalHandler s (Handler.user n) sigs) rest

/-- Spec-side: the callback ids registered as wildcard handlers (zero
signal arguments), in registration order. -/
def wildcardOrder : List (Nat × List Nat) → List Nat
  | [] => []
  | (n, sigs) :: rest =>
      (if sigs.isEmpty then [n] else []) ++ wildcardOrder rest

/-- One registration's contribution to the handlers of target `t`: the
id once per occurrence of `t` among the signal arguments. -/
def occContrib (n : Nat) (t : Nat) : List Nat → List Nat
  | [] => []
  | m :: rest => (if m = t then [n] else []) ++ occContrib n t rest

/-- Spec-side: the callback ids registered specifically for signal `t`,
in registration order. -/
def specificOrder (t : Nat) : List (Nat × List Nat) → List Nat
  | [] => []
  | (n, sigs) :: rest =>
      (if sigs.isEmpty then [] else occContrib n t sigs) ++ specificOrder t rest

/-- The handlers contributed to key `k` by one `RegisterSignalHandler`
call on signal list `sigs`. -/
def sigContrib (h : Handler) (k : SigKey) : List Nat → List Handler
  | [] => []
  | n :: rest => (if SigKey.sig n = k then [h] else []) ++ sigContrib h k rest

/-- Mutating operations on a `Handlers` aggregate (dispatch does not
mutate the state, so it does not appear). -/
inductive Op where
  | regHandler : Handler → List Nat → Op
  | regTermProc : (Nat → Option GoError) → String → Op
  | setLog : Option Unit → Op

/-- State transition of one operation. -/
def applyOp (s : Handlers) : Op → Handlers
  | Op.regHandler h sigs => RegisterSignalHandler s h sigs
  | Op.regTermProc fn msg => (RegisterTerminationProcedure s fn msg).1
  | Op.setLog l => SetLogger s l

/-- State of the `chan os.Signal` created by `StartListen`
(handlers.go:87-101). -/
structure SignalChan where
  closed : Bool
deriving DecidableEq

/-- The channel as `StartListen` creates it. -/
def startListenChan : SignalChan := { closed := false }

/-- The cancellation handle returned by `StartListen`:
`func() { signal.Stop(c); close(c) }`.  `signal.Stop` is always safe to
repeat, but Go's `close` panics on an already-closed channel. -/
def cancelFunc (c : SignalChan) : Except GoPanic SignalChan :=
  if c.closed then Except.error GoPanic.closeOfClosedChannel
  else Except.ok { closed := true }

/-- A state whose first procedure fails with carried code 0 and whose
second fails with carried code 7 (used to probe exit-code resolution). -/
def zeroCodeState : Handlers :=
  { log := some ()
    handlers := [(SigKey.any, [])]
    terminationSignals := DefaultTerminationSignals
    terminationProcedures :=
      [⟨fun _ => WrapErrorWithCode (some (GoError.base 1)) 0, "p1"⟩,
       ⟨fun _ => WrapErrorWithCode (some (GoError.base 2)) 7, "p2"⟩] }

/-- The spec's own example: a first procedure failing with carried code
42 followed by a second failing plainly (no carrier). -/
def codedThenPlainState : Handlers :=
  { log := some ()
    handlers := [(SigKey.any, [])]
    terminationSignals := DefaultTerminationSignals
    terminationProcedures :=
      [⟨fun _ => WrapErrorWithCode (some (GoError.base 1)) 42, "coded"⟩,
       ⟨fun _ => some (GoError.base 2), "plain"⟩] }

end Signal

namespace Signal

/-- C9: `WrapErrorWithCode(nil, code)` returns an absent (nil) error for
every integer code. -/
theorem WrapErrorWithCode_nil (code : Int) :
    WrapErrorWithCode none code = none := rfl

/-- C5: wrapping a non-nil error with code 42 and then extracting
round-trips to 42 for any default, and a plain error that is not a
carrier extracts to the caller-supplied default 42. -/
theorem getCodeFromError_roundtrip (e : GoError) (d : Int) (p : GoError)
    (hp : isCarrier p = false) :
    getCodeFromError (WrapErrorWithCode (some e) 42) d = 42 ∧
      getCodeFromError (some p) 42 = 42 := by
  refine ⟨rfl, ?_⟩
  cases p with
  | base n => rfl
  | withCode e' c => simp [isCarrier] at hp

/-- Witness for C5 at a concrete error. -/
theorem getCodeFromError_roundtrip_witness :
    isCarrier (GoError.base 0) = false ∧
      (getCodeFromError (WrapErrorWithCode (some (GoError.base 7)) 42) (-1) = 42 ∧
        getCodeFromError (some (GoError.base 0)) 42 = 42) :=
  ⟨rfl, getCodeFromError_roundtrip (GoError.base 7) (-1) (GoError.base 0) rfl⟩

/-- C10: wrapping an already-wrapped error re-wraps it, and the
outermost code wins when extracting, for any default. -/
theorem getCodeFromError_rewrap_outer_wins (e : GoError) (a b d : Int) :
    WrapErrorWithCode (WrapErrorWithCode (some e) a) b
        = some (GoError.withCode (GoError.withCode e a) b) ∧
      getCodeFromError (WrapErrorWithCode (WrapErrorWithCode (some e) a) b) d = b :=
  ⟨rfl, rfl⟩

lemma logCall_some (s : Handlers) (h : s.log = some ()) (e : Event) :
    logCall s e = Except.ok [e] := by
  simp [logCall, h]

/-- Master lemma for the loop of `runTerminationProcedures`: with a
live logger it never panics, the final code is `resolvedCode` when the
accumulator starts unresolved (and the accumulator itself otherwise),
every procedure is invoked, and no user-callback events appear. -/
lemma runProcs_ok (s : Handlers) (sig : Nat) (h : s.log = some ()) :
    ∀ (procs : List TermProc) (i : Nat) (code : Int),
      ∃ tr, runProcs s sig procs i code
          = Except.ok ((if code = 0 then resolvedCode sig procs else code), tr)
        ∧ (∀ j, j < procs.length → Event.procCall (i + j) ∈ tr)
        ∧ tr.filterMap callUserId = [] := by
  intro procs
  induction procs with
  | nil =>
      intro i code
      refine ⟨[Event.info "all termination procedures are done"], ?_, ?_, ?_⟩
      · simp only [runProcs, logCall_some s h, resolvedCode]
        by_cases hc : code = 0 <;> simp [hc]
      · intro j hj; simp at hj
      · simp [callUserId]
  | cons proc rest ih =>
      intro i code
      cases hfn : proc.fn sig with
      | none =>
          obtain ⟨tr', heq, hmem, hfm⟩ := ih (i + 1) code
          refine ⟨Event.info proc.message :: Event.procCall i :: tr', ?_, ?_, ?_⟩
          · simp only [runProcs, logCall_some s h, hfn, heq, resolvedCode]
            simp
          · intro j hj
            cases j with
            | zero => simp
            | succ j' =>
                have hj' : j' < rest.length := by simpa using hj
                have hx : i + (j' + 1) = (i + 1) + j' := by omega
                have := hmem j' hj'
                simp [hx, this]
          · simp [callUserId, hfm]
      | some e =>
          obtain ⟨tr', heq, hmem, hfm⟩ :=
            ih (i + 1) (if code = 0 then getCodeFromError (some e) 1 else code)
          refine ⟨Event.info proc.message :: Event.procCall i ::
              (Event.infoErr "error while running termination procedure: " e :: tr'),
              ?_, ?_, ?_⟩
          · simp only [runProcs, logCall_some s h, hfn, heq]
            by_cases hc : code = 0
            · by_cases hg : getCodeFromError (some e) 1 = 0 <;>
                simp [hc, hg, resolvedCode, hfn]
            · simp [hc, resolvedCode, hfn]
          · intro j hj
            cases j with
            | zero => simp
            | succ j' =>
                have hj' : j' < rest.length := by simpa using hj
                have hx : i + (j' + 1) = (i + 1) + j' := by omega
                have := hmem j' hj'
                simp [hx, this]
          · simp [callUserId, hfm]

/-- With a live logger, the termination pipeline never panics, returns
the `resolvedCode` of the registered procedures, invokes every
procedure, and emits no user-callback events. -/
lemma runTerminationProcedures_spec (s : Handlers) (sig : Nat)
    (h : s.log = some ()) :
    ∃ tr, runTerminationProcedures s sig
        = Except.ok (resolvedCode sig s.terminationProcedures, tr)
      ∧ (∀ i, i < s.terminationProcedures.length → Event.procCall i ∈ tr)
      ∧ tr.filterMap callUserId = [] := by
  unfold runTerminationProcedures
  cases hp : s.terminationProcedures with
  | nil =>
      refine ⟨[Event.info "nothing to do before termination"], ?_, ?_, ?_⟩
      · simp [logCall_some s h, resolvedCode]
      · intro i hi; simp at hi
      · simp [callUserId]
  | cons p rest =>
      obtain ⟨tr, heq, hmem, hfm⟩ := runProcs_ok s sig h (p :: rest) 0 0
      refine ⟨tr, ?_, ?_, hfm⟩
      · simpa using heq
      · intro i hi
        have := hmem i (by simpa using hi)
        simpa using this

/-- C4: running the termination pipeline with zero registered
procedures returns exit code 0, logs the informational "nothing to do"
message, and raises no panic. -/
theorem runTerminationProcedures_empty (s : Handlers) (sig : Nat)
    (h1 : s.terminationProcedures = []) (h2 : s.log = some ()) :
    runTerminationProcedures s sig
      = Except.ok ((0 : Int), [Event.info "nothing to do before termination"]) := by
  simp [runTerminationProcedures, h1, logCall_some s h2]

/-- Witness for C4 on a freshly constructed aggregate. -/
theorem runTerminationProcedures_empty_witness :
    (NewHandlers []).terminationProcedures = [] ∧ (NewHandlers []).log = some () ∧
      runTerminationProcedures (NewHandlers []) SIGINT
        = Except.ok ((0 : Int), [Event.info "nothing to do before termination"]) :=
  ⟨rfl, rfl, runTerminationProcedures_empty (NewHandlers []) SIGINT rfl rfl⟩

/-- Counterexample to C1 as stated: in `zeroCodeState` the first
procedure is the first to return a non-nil error, that error is a
carrier carrying code 0, yet the pipeline's exit code is 7 (from the
second procedure) — so the first error-returning procedure does not
always determine the exit code. -/
theorem first_error_not_always_final :
    zeroCodeState.terminationProcedures.map (fun p => p.fn SIGTERM)
        = [some (GoError.withCode (GoError.base 1) 0),
           some (GoError.withCode (GoError.base 2) 7)] ∧
      getCodeFromError (some (GoError.withCode (GoError.base 1) 0)) 1 = 0 ∧
      (runTerminationProcedures zeroCodeState SIGTERM).map Prod.fst
        = Except.ok (7 : Int) :=
  ⟨rfl, rfl, rfl⟩

/-- C1 (amended): the pipeline's exit code is the resolution of the
first procedure (in registration order) whose error resolves to a
nonzero code (carried code if a carrier, else the default 1); an error
resolving to 0 leaves the code unresolved, later errors cannot
override a nonzero resolved code, and every procedure is still invoked
despite earlier failures. -/
theorem runTerminationProcedures_first_nonzero_wins (s : Handlers) (sig : Nat)
    (h : s.log = some ()) :
    ∃ tr, runTerminationProcedures s sig
        = Except.ok (resolvedCode sig s.terminationProcedures, tr)
      ∧ ∀ i, i < s.terminationProcedures.length → Event.procCall i ∈ tr := by
  obtain ⟨tr, heq, hmem, _⟩ := runTerminationProcedures_spec s sig h
  exact ⟨tr, heq, hmem⟩

lemma lookupEntry_updEntry (m : List (SigKey × List Handler)) (a b : SigKey)
    (h : Handler) :
    lookupEntry (updEntry m a h) b
      = lookupEntry m b ++ (if a = b then [h] else []) := by
  induction m with
  | nil => by_cases hab : a = b <;> simp [updEntry, lookupEntry, hab]
  | cons p rest ih =>
      obtain ⟨k', hs⟩ := p
      by_cases hka : k' = a
      · by_cases hkb : k' = b
        · have hab : a = b := hka.symm.trans hkb
          simp [updEntry, lookupEntry, hka, hkb, hab]
        · have hab : ¬a = b := fun hh => hkb (hka.trans hh)
          simp [updEntry, lookupEntry, hka, hkb, hab]
      · by_cases hkb : k' = b
        · have hab : ¬a = b := fun hh => hka (hkb.trans hh.symm)
          have hba : ¬b = a := fun hh => hka (hkb.trans hh)
          simp [updEntry, lookupEntry, hka, hkb, hab, hba]
        · simp [updEntry, lookupEntry, hka, hkb, ih]

lemma lookupEntry_foldl_updEntry (h : Handler) (k : SigKey) :
    ∀ (sigs : List Nat) (m : List (SigKey × List Handler)),
      lookupEntry (sigs.foldl (fun acc n => updEntry acc (SigKey.sig n) h) m) k
        = lookupEntry m k ++ sigContrib h k sigs := by
  intro sigs
  induction sigs with
  | nil => intro m; simp [sigContrib]
  | cons n rest ih =>
      intro m
      simp only [List.foldl_cons, sigContrib]
      rw [ih, lookupEntry_updEntry, List.append_assoc]

lemma lookupEntry_register (s : Handlers) (h : Handler) (sigs : List Nat)
    (k : SigKey) :
    lookupEntry (RegisterSignalHandler s h sigs).handlers k
      = lookupEntry s.handlers k
        ++ (if sigs.isEmpty then (if SigKey.any = k then [h] else [])
            else sigContrib h k sigs) := by
  by_cases he : sigs.isEmpty
  · simp [RegisterSignalHandler, he, lookupEntry_updEntry]
  · simp [RegisterSignalHandler, he, lookupEntry_foldl_updEntry]

lemma sigContrib_user_any (n : Nat) (sigs : List Nat) :
    sigContrib (Handler.user n) SigKey.any sigs = [] := by
  induction sigs with
  | nil => rfl
  | cons m rest ih => simp [sigContrib, ih]

lemma sigContrib_user_sig (n t : Nat) (sigs : List Nat) :
    sigContrib (Handler.user n) (SigKey.sig t) sigs
      = (occContrib n t sigs).map Handler.user := by
  induction sigs with
  | nil => rfl
  | cons m rest ih =>
      by_cases hm : m = t <;> simp [sigContrib, occContrib, hm, ih]

lemma applyRegs_log (s : Handlers) (regs : List (Nat × List Nat)) :
    (applyRegs s regs).log = s.log := by
  induction regs generalizing s with
  | nil => rfl
  | cons r rest ih =>
      obtain ⟨n, sigs⟩ := r
      rw [applyRegs, ih]
      by_cases he : sigs.isEmpty <;> simp [RegisterSignalHandler, he]

lemma lookupEntry_applyRegs_any (s : Handlers) (regs : List (Nat × List Nat)) :
    lookupEntry (applyRegs s regs).handlers SigKey.any
      = lookupEntry s.handlers SigKey.any ++ (wildcardOrder regs).map Handler.user := by
  induction regs generalizing s with
  | nil => simp [applyRegs, wildcardOrder]
  | cons r rest ih =>
      obtain ⟨n, sigs⟩ := r
      rw [applyRegs, ih, lookupEntry_register]
      by_cases he : sigs.isEmpty <;>
        simp [he, wildcardOrder, sigContrib_user_any]

lemma lookupEntry_applyRegs_sig (s : Handlers) (regs : List (Nat × List Nat))
    (t : Nat) :
    lookupEntry (applyRegs s regs).handlers (SigKey.sig t)
      = lookupEntry s.handlers (SigKey.sig t)
        ++ (specificOrder t regs).map Handler.user := by
  induction regs generalizing s with
  | nil => simp [applyRegs, specificOrder]
  | cons r rest ih =>
      obtain ⟨n, sigs⟩ := r
      rw [applyRegs, ih, lookupEntry_register]
      by_cases he : sigs.isEmpty <;>
        simp [he, specificOrder, sigContrib_user_sig]

lemma containsKey_updEntry (m : List (SigKey × List Handler)) (a k : SigKey)
    (h : Handler) :
    containsKey (updEntry m a h) k = (containsKey m k || decide (a = k)) := by
  induction m with
  | nil => simp [updEntry, containsKey]
  | cons p rest ih =>
      obtain ⟨k', hs⟩ := p
      by_cases hka : k' = a
      · subst hka
        by_cases hkk : k' = k <;> simp [updEntry, containsKey, hkk]
      · simp [updEntry, containsKey, hka, ih, Bool.or_assoc]

lemma lookupEntry_eq_nil_of_not_containsKey (m : List (SigKey × List Handler))
    (k : SigKey) (h : containsKey m k = false) : lookupEntry m k = [] := by
  induction m with
  | nil => rfl
  | cons p rest ih =>
      obtain ⟨k', hs⟩ := p
      simp [containsKey] at h
      simp [lookupEntry, h.1, ih h.2]

lemma keysUnique_updEntry (m : List (SigKey × List Handler)) (a : SigKey)
    (h : Handler) (hu : keysUnique m = true) : keysUnique (updEntry m a h) = true := by
  induction m with
  | nil => simp [updEntry, keysUnique, containsKey]
  | cons p rest ih =>
      obtain ⟨k', hs⟩ := p
      simp [keysUnique] at hu
      by_cases hka : k' = a
      · subst hka; simp [updEntry, keysUnique, hu.1, hu.2]
      · have hak : ¬a = k' := fun hh => hka hh.symm
        simp [updEntry, keysUnique, hka, containsKey_updEntry, hu.1, ih hu.2, hak]

lemma keysUnique_foldl_updEntry (h : Handler) :
    ∀ (sigs : List Nat) (m : List (SigKey × List Handler)),
      keysUnique m = true →
        keysUnique (sigs.foldl (fun acc n => updEntry acc (SigKey.sig n) h) m) = true := by
  intro sigs
  induction sigs with
  | nil => intro m hm; simpa using hm
  | cons n rest ih =>
      intro m hm
      simpa using ih (updEntry m (SigKey.sig n) h) (keysUnique_updEntry m _ h hm)

lemma keysUnique_register (s : Handlers) (h : Handler) (sigs : List Nat)
    (hu : keysUnique s.handlers = true) :
    keysUnique (RegisterSignalHandler s h sigs).handlers = true := by
  by_cases he : sigs.isEmpty
  · simpa [RegisterSignalHandler, he] using keysUnique_updEntry s.handlers _ h hu
  · simpa [RegisterSignalHandler, he] using keysUnique_foldl_updEntry h sigs s.handlers hu

lemma keysUnique_applyRegs (s : Handlers) (regs : List (Nat × List Nat))
    (hu : keysUnique s.handlers = true) :
    keysUnique (applyRegs s regs).handlers = true := by
  induction regs generalizing s with
  | nil => simpa [applyRegs] using hu
  | cons r rest ih =>
      obtain ⟨n, sigs⟩ := r
      exact ih _ (keysUnique_register s _ sigs hu)

/-- With a live logger, `handleTerminationSignals` never panics and its
trace contains no user-callback events. -/
lemma handleTerminationSignals_spec (s : Handlers) (sig : Nat)
    (h : s.log = some ()) :
    ∃ tr, handleTerminationSignals s sig = Except.ok tr
      ∧ tr.filterMap callUserId = [] := by
  obtain ⟨tr, heq, _, hfm⟩ := runTerminationProcedures_spec s sig h
  refine ⟨tr ++ [Event.info "bye"] ++ [Event.exit (resolvedCode sig s.terminationProcedures)], ?_, ?_⟩
  · simp [handleTerminationSignals, heq, logCall_some s h]
  · simp [List.filterMap_append, hfm, callUserId]

/-- Invoking one handler with a live logger: no panic, and the
user-callback events are exactly the handler's own id (none for the
internal termination handler). -/
lemma runHandler_spec (s : Handlers) (target : Nat) (h : s.log = some ())
    (hd : Handler) :
    ∃ tr, runHandler s target hd = Except.ok tr
      ∧ tr.filterMap callUserId = userIds [hd] := by
  cases hd with
  | user n => exact ⟨[Event.callUser n target], rfl, by simp [callUserId, userIds]⟩
  | term =>
      obtain ⟨tr, heq, hfm⟩ := handleTerminationSignals_spec s target h
      exact ⟨tr, heq, by simp [hfm, userIds]⟩

/-- Invoking a handler list with a live logger: no panic, and the
user-callback events are the embedded user ids in order. -/
lemma runHandlers_spec (s : Handlers) (target : Nat) (h : s.log = some ()) :
    ∀ hs : List Handler,
      ∃ tr, runHandlers s target hs = Except.ok tr
        ∧ tr.filterMap callUserId = userIds hs := by
  intro hs
  induction hs with
  | nil => exact ⟨[], rfl, rfl⟩
  | cons hd rest ih =>
      obtain ⟨tr1, e1, f1⟩ := runHandler_spec s target h hd
      obtain ⟨tr2, e2, f2⟩ := ih
      refine ⟨tr1 ++ tr2, ?_, ?_⟩
      · simp [runHandlers, e1, e2]
      · cases hd with
        | user n => simp [List.filterMap_append, f1, f2, userIds]
        | term => simp [List.filterMap_append, f1, f2, userIds]

/-- The map-range loop of `handleSignal` with a live logger and a
unique-key registry: no panic, and the user-callback events are
exactly those of the entry registered for the target. -/
lemma dispatchSpecific_spec (s : Handlers) (target : Nat) (h : s.log = some ()) :
    ∀ m : List (SigKey × List Handler), keysUnique m = true →
      ∃ tr, dispatchSpecific s target m = Except.ok tr
        ∧ tr.filterMap callUserId = userIds (lookupEntry m (SigKey.sig target)) := by
  intro m
  induction m with
  | nil => intro _; exact ⟨[], rfl, rfl⟩
  | cons p rest ih =>
      intro hu
      obtain ⟨k, hs⟩ := p
      simp [keysUnique] at hu
      by_cases hk : k = SigKey.sig target
      · obtain ⟨tr1, e1, f1⟩ := runHandlers_spec s target h hs
        obtain ⟨tr2, e2, f2⟩ := ih hu.2
        have hrest : lookupEntry rest (SigKey.sig target) = [] :=
          lookupEntry_eq_nil_of_not_containsKey rest _ (hk ▸ hu.1)
        refine ⟨tr1 ++ tr2, ?_, ?_⟩
        · simp [dispatchSpecific, hk, e1, e2]
        · simp [List.filterMap_append, f1, f2, lookupEntry, hk, hrest, userIds]
      · obtain ⟨tr2, e2, f2⟩ := ih hu.2
        refine ⟨Event.debugNoHandler target :: tr2, ?_, ?_⟩
        · simp [dispatchSpecific, hk, logCall_some s h, e2]
        · simp [callUserId, f2, lookupEntry, hk]

lemma userIds_map_user (l : List Nat) : userIds (l.map Handler.user) = l := by
  induction l with
  | nil => rfl
  | cons n rest ih => simp [userIds, ih]

/-- C2: dispatching any signal on a registry built by any sequence of
registration calls invokes all wildcard callbacks in registration
order, then the callbacks registered specifically for that signal in
registration order, and nothing else. -/
theorem handleSignal_wildcard_then_specific (regs : List (Nat × List Nat))
    (target : Nat) :
    ∃ tr, handleSignal (applyRegs registryInit regs) target = Except.ok tr
      ∧ tr.filterMap callUserId
          = wildcardOrder regs ++ specificOrder target regs := by
  have hlog : (applyRegs registryInit regs).log = some () := by
    rw [applyRegs_log]; rfl
  have hw : lookupEntry (applyRegs registryInit regs).handlers SigKey.any
      = (wildcardOrder regs).map Handler.user := by
    rw [lookupEntry_applyRegs_any]; rfl
  have hsg : lookupEntry (applyRegs registryInit regs).handlers (SigKey.sig target)
      = (specificOrder target regs).map Handler.user := by
    rw [lookupEntry_applyRegs_sig]; rfl
  have hku : keysUnique (applyRegs registryInit regs).handlers = true :=
    keysUnique_applyRegs registryInit regs rfl
  obtain ⟨tr1, e1, f1⟩ := runHandlers_spec (applyRegs registryInit regs) target hlog
    (lookupEntry (applyRegs registryInit regs).handlers SigKey.any)
  obtain ⟨tr2, e2, f2⟩ := dispatchSpecific_spec (applyRegs registryInit regs) target hlog
    (applyRegs registryInit regs).handlers hku
  refine ⟨tr1 ++ tr2, ?_, ?_⟩
  · simp [handleSignal, e1, e2]
  · rw [List.filterMap_append, f1, f2, hw, hsg, userIds_map_user, userIds_map_user]

lemma containsKey_foldl_updEntry (h : Handler) (k : SigKey) :
    ∀ (sigs : List Nat) (m : List (SigKey × List Handler)),
      containsKey m k = true →
        containsKey (sigs.foldl (fun acc n => updEntry acc (SigKey.sig n) h) m) k = true := by
  intro sigs
  induction sigs with
  | nil => intro m hm; simpa using hm
  | cons n rest ih =>
      intro m hm
      simpa using ih (updEntry m (SigKey.sig n) h)
        (by simp [containsKey_updEntry, hm])

lemma containsKey_register (s : Handlers) (h : Handler) (sigs : List Nat)
    (k : SigKey) (hc : containsKey s.handlers k = true) :
    containsKey (RegisterSignalHandler s h sigs).handlers k = true := by
  by_cases he : sigs.isEmpty
  · simp [RegisterSignalHandler, he, containsKey_updEntry, hc]
  · simpa [RegisterSignalHandler, he] using containsKey_foldl_updEntry h k sigs s.handlers hc

lemma containsKey_applyOps :
    ∀ (ops : List Op) (s : Handlers), containsKey s.handlers SigKey.any = true →
      containsKey ((ops.foldl applyOp s).handlers) SigKey.any = true := by
  intro ops
  induction ops with
  | nil => intro s hs; simpa using hs
  | cons op rest ih =>
      intro s hs
      cases op with
      | regHandler h sigs =>
          simpa using ih (RegisterSignalHandler s h sigs)
            (containsKey_register s h sigs SigKey.any hs)
      | regTermProc fn msg =>
          simpa [applyOp, RegisterTerminationProcedure] using
            ih { s with terminationProcedures := s.terminationProcedures ++ [⟨fn, msg⟩] } hs
      | setLog l => simpa [applyOp, SetLogger] using ih { s with log := l } hs

/-- C8: for every construction and every sequence of mutating
operations, the registry still contains the wildcard (`anySignal`)
key. -/
theorem wildcard_key_always_present (ts : List Nat) (ops : List Op) :
    containsKey ((ops.foldl applyOp (NewHandlers ts)).handlers) SigKey.any = true := by
  refine containsKey_applyOps ops (NewHandlers ts) ?_
  refine containsKey_register _ Handler.term _ SigKey.any ?_
  simp [containsKey]

/-- C3: constructing with no explicit signals and registering no
termination procedures, dispatching a default termination signal
produces exactly one exit-function invocation, with code 0. -/
theorem handleSignal_default_exit_zero (sig : Nat)
    (h : sig ∈ DefaultTerminationSignals) :
    (handleSignal (NewHandlers []) sig).map (fun tr => tr.filter isExitEvent)
      = Except.ok [Event.exit 0] := by
  simp [DefaultTerminationSignals, SIGTERM, SIGINT] at h
  rcases h with h | h <;> subst h <;> rfl

/-- Witness for C3 at SIGINT. -/
theorem handleSignal_default_exit_zero_witness :
    SIGINT ∈ DefaultTerminationSignals ∧
      (handleSignal (NewHandlers []) SIGINT).map (fun tr => tr.filter isExitEvent)
        = Except.ok [Event.exit 0] :=
  ⟨by decide, handleSignal_default_exit_zero SIGINT (by decide)⟩

/-- Counterexample to C6 as stated: the cancellation handle succeeds
once, but invoking it again on the resulting channel state panics with
close-of-closed-channel, so a second invocation does panic. -/
theorem cancelFunc_twice_panics :
    cancelFunc startListenChan = Except.ok { closed := true } ∧
      cancelFunc { closed := true } = Except.error GoPanic.closeOfClosedChannel :=
  ⟨rfl, rfl⟩

/-- C6 (amended): the first invocation of the handle succeeds and
closes the channel; any further invocation (on the now-closed channel)
panics because it closes an already-closed channel — the handle is not
idempotent. -/
theorem cancelFunc_not_idempotent (c : SignalChan)
    (h : cancelFunc startListenChan = Except.ok c) :
    c.closed = true ∧ cancelFunc c = Except.error GoPanic.closeOfClosedChannel := by
  have hc : c = { closed := true } := by
    simpa [cancelFunc, startListenChan] using h.symm
  subst hc
  exact ⟨rfl, rfl⟩

/-- Witness for C6 (amended). -/
theorem cancelFunc_not_idempotent_witness :
    cancelFunc startListenChan = Except.ok { closed := true } ∧
      (({ closed := true } : SignalChan).closed = true ∧
        cancelFunc { closed := true } = Except.error GoPanic.closeOfClosedChannel) :=
  ⟨rfl, cancelFunc_not_idempotent { closed := true } rfl⟩

/-- Counterexample to C7 as stated: after `SetLogger(nil)`, registering
a termination procedure dereferences the nil logger (its `Debug` call)
and panics, so subsequent operations do not all succeed. -/
theorem setLogger_nil_then_register_panics :
    (RegisterTerminationProcedure (SetLogger (NewHandlers []) none)
        (fun _ => none) "cleanup").2 = Except.error GoPanic.nilLoggerDeref :=
  rfl

/-- C7 (amended): `SetLogger` accepts a nil logger and stores it, and
`RegisterSignalHandler` (which never logs) is unaffected; but every
operation that invokes the logger — registering a termination
procedure, running the termination pipeline, dispatching a signal —
panics on the nil logger instead of silently disabling logging. -/
theorem setLogger_nil_accepted_but_logging_panics (s : Handlers)
    (fn : Nat → Option GoError) (msg : String) (h : Handler)
    (sigs : List Nat) (sig target : Nat) :
    (SetLogger s none).log = none ∧
      RegisterSignalHandler (SetLogger s none) h sigs
          = SetLogger (RegisterSignalHandler s h sigs) none ∧
      (RegisterTerminationProcedure (SetLogger s none) fn msg).2
          = Except.error GoPanic.nilLoggerDeref ∧
      runTerminationProcedures (SetLogger s none) sig
          = Except.error GoPanic.nilLoggerDeref ∧
      handleSignal (SetLogger (NewHandlers []) none) target
          = Except.error GoPanic.nilLoggerDeref := by
  refine ⟨rfl, ?_, rfl, ?_, ?_⟩
  · by_cases he : sigs.isEmpty <;> simp [RegisterSignalHandler, SetLogger, he]
  · cases hp : s.terminationProcedures with
    | nil => simp [runTerminationProcedures, SetLogger, hp, logCall]
    | cons p rest => simp [runTerminationProcedures, SetLogger, hp, logCall, runProcs]
  · rfl

/-- Witness for C1 (amended) on the spec's own example: a coded failure
(42) followed by a plain failure resolves to 42 while both procedures
run. -/
theorem first_nonzero_wins_witness :
    codedThenPlainState.log = some () ∧
      resolvedCode SIGTERM codedThenPlainState.terminationProcedures = 42 ∧
      (∃ tr, runTerminationProcedures codedThenPlainState SIGTERM
          = Except.ok (resolvedCode SIGTERM codedThenPlainState.terminationProcedures, tr)
        ∧ ∀ i, i < codedThenPlainState.terminationProcedures.length →
            Event.procCall i ∈ tr) :=
  ⟨rfl, rfl, runTerminationProcedures_first_nonzero_wins codedThenPlainState SIGTERM rfl⟩

end Signal
